import Mathlib

/-!
Verification of the documentation-assistant server (knowledge base, schema
tool, search tool, feedback tool).  The Python sources are shallowly embedded:
strings are `List Char`, the CPython string primitives used by the code
(`lower`, `replace`, `split`, `strip`, `in`, slicing) are reproduced as
executable functions on character lists, restricted to the ASCII behaviour the
data actually exercises.  Scores that the source computes in floating point
are exact multiples of 0.1 there (only the literals 0.3 and 0.5 ever occur, at
most one 0.3 per cluster), so they are represented here scaled by 10 as exact
integers.  Fuel arguments equal to the input length make every scanner
structurally recursive so that the kernel can evaluate it; the fuel is always
sufficient by construction.
-/

set_option maxRecDepth 100000

namespace RampMCP

/-- Whitespace class of CPython `str.split` / `str.strip` and of the regex
class `\s`, restricted to ASCII. -/
def isPySpace (c : Char) : Bool :=
  c = ' ' || c = '\t' || c = '\n' || c = '\x0d' || c = '\x0b' || c = '\x0c'

/-- ASCII lower-casing of one character, the fragment of `str.lower` that the
catalog data and the embedded queries exercise. -/
def lowerChar (c : Char) : Char :=
  if 'A' ≤ c ∧ c ≤ 'Z' then Char.ofNat (c.toNat + 32) else c

/-- ASCII upper-casing of one character (`str.upper`). -/
def upperChar (c : Char) : Char :=
  if 'a' ≤ c ∧ c ≤ 'z' then Char.ofNat (c.toNat - 32) else c

/-- Lower-case a character list (`str.lower`). -/
def pyLower (l : List Char) : List Char := l.map lowerChar

/-- Upper-case a character list (`str.upper`). -/
def pyUpper (l : List Char) : List Char := l.map upperChar

/-- Boolean prefix test: `isPrefixB p l` holds when `p` begins `l`. -/
def isPrefixB : List Char → List Char → Bool
  | [], _ => true
  | _ :: _, [] => false
  | a :: as, b :: bs => a = b && isPrefixB as bs

/-- Boolean suffix test (`str.endswith`). -/
def isSuffixB (p l : List Char) : Bool := isPrefixB p.reverse l.reverse

/-- Substring test, the Python `in` operator on strings: `containsB hay pat`
holds when `pat` occurs contiguously inside `hay`. -/
def containsB : List Char → List Char → Bool
  | [], pat => isPrefixB pat []
  | c :: t, pat => isPrefixB pat (c :: t) || containsB t pat

/-- One step of `str.replace`: `replaceGo old new fuel l` rewrites every
non-overlapping occurrence of `old` in `l` (scanned left to right) to `new`.
The fuel bounds recursion depth; `fuel ≥ l.length` makes it exact. -/
def replaceGo (old new : List Char) : Nat → List Char → List Char
  | _, [] => []
  | 0, l => l
  | fuel + 1, c :: rest =>
    if isPrefixB old (c :: rest) then
      new ++ replaceGo old new fuel (rest.drop (old.length - 1))
    else
      c :: replaceGo old new fuel rest

/-- CPython `str.replace` for a non-empty pattern. -/
def replaceB (l old new : List Char) : List Char := replaceGo old new l.length l

/-- CPython `str.split()` with no separator: split on whitespace runs and drop
empty words. -/
def splitWS (l : List Char) : List (List Char) :=
  let p := l.foldr
    (fun c (acc : List Char × List (List Char)) =>
      if isPySpace c then ([], if acc.1.isEmpty then acc.2 else acc.1 :: acc.2)
      else (c :: acc.1, acc.2)) ([], [])
  if p.1.isEmpty then p.2 else p.1 :: p.2

/-- CPython `str.split(sep)` for a one-character separator: empty pieces are
kept, the empty string splits to one empty piece. -/
def splitOnSep (sep : Char) (l : List Char) : List (List Char) :=
  l.foldr
    (fun c acc =>
      match acc with
      | [] => [[c]]
      | w :: ws => if c = sep then [] :: w :: ws else (c :: w) :: ws)
    [[]]

/-- Join character lists with a one-character separator (`sep.join(parts)`). -/
def joinSep (sep : Char) : List (List Char) → List Char
  | [] => []
  | [x] => x
  | x :: xs => x ++ sep :: joinSep sep xs

/-- CPython `str.strip()` with no argument (ASCII whitespace). -/
def stripWS (l : List Char) : List Char :=
  ((l.dropWhile isPySpace).reverse.dropWhile isPySpace).reverse

/-- Lexicographic order on character lists by code point, the order CPython
`sorted` uses on strings. -/
def strLE : List Char → List Char → Bool
  | [], _ => true
  | _ :: _, [] => false
  | a :: as, b :: bs => if a = b then strLE as bs else decide (a < b)

/-- Insert into a list sorted by `strLE`. -/
def insertOrd (x : List Char) : List (List Char) → List (List Char)
  | [] => [x]
  | y :: ys => if strLE x y then x :: y :: ys else y :: insertOrd x ys

/-- Insertion sort by `strLE`; on duplicate-free input this is the unique
nondecreasing arrangement, hence the value of CPython `sorted`. -/
def sortStr (l : List (List Char)) : List (List Char) := l.foldr insertOrd []

/-- Keep one representative of every element (the Python `set(...)` step; the
result is canonicalised by `sortStr` wherever the source sorts the set). -/
def dedupB : List (List Char) → List (List Char)
  | [] => []
  | x :: xs => if xs.contains x then dedupB xs else x :: dedupB xs

end RampMCP

namespace RampMCP

/-- One use-case cluster of the static catalog
(`RampKnowledgeBase._define_clusters`). -/
structure Cluster where
  name : String
  keywords : List String
  guides : List String
  endpoints : List String
  warnings : List String
deriving DecidableEq, Repr

/-- The CORS warning attached to the authentication cluster (the string is
copied byte for byte from the source, including its mis-decoded emoji). -/
def corsWarning : String :=
  "âš ï¸ CRITICAL: Never call /developer/v1/token from browser JavaScript! This causes CORS errors. For browser-based apps: (1) Use OAuth2 Authorization Code flow to redirect users to Ramp for authentication, or (2) Use your backend server to proxy token requests with client_credentials flow."

/-- The authentication cluster of `_define_clusters`. -/
def authenticationCluster : Cluster :=
  { name := "authentication"
    keywords := ["authentication", "setup", "auth", "oauth", "authorization code",
      "internal integration", "oauth flows", "access token", "bearer token",
      "refresh token"]
    guides := ["authorization.mdx"]
    endpoints := ["/developer/v1/token"]
    warnings := [corsWarning] }

/-- The accounts-payable cluster of `_define_clusters`. -/
def apWorkflowCluster : Cluster :=
  { name := "ap_workflow"
    keywords := ["bills", "accounts payable", "ap", "vendors", "payments",
      "bill pay", "invoice"]
    guides := ["guides/bill-pay.mdx"]
    endpoints := ["/developer/v1/bills", "/developer/v1/bills/drafts",
      "/developer/v1/vendors", "/developer/v1/vendors/{vendor_id}/accounts",
      "/developer/v1/vendors/{vendor_id}/update-bank-accounts"]
    warnings := ["In Ramp's API, payments are not managed by their own endpoints. Payment information is nested within the Bills endpoint and bill payments are executed by creating Bills."] }

/-- The ERP-integration cluster of `_define_clusters`. -/
def erpIntegrationCluster : Cluster :=
  { name := "erp_integration"
    keywords := ["erp", "accounting", "gl", "sync"]
    guides := ["guides/accounting.mdx"]
    endpoints := ["/developer/v1/accounting/accounts", "/developer/v1/accounting/syncs",
      "/developer/v1/accounting/connection", "/developer/v1/accounting/vendors",
      "/developer/v1/accounting/fields"]
    warnings := [] }

/-- The card-management cluster of `_define_clusters`. -/
def cardManagementCluster : Cluster :=
  { name := "card_management"
    keywords := ["cards", "virtual cards", "card create", "card issue",
      "card creation", "card issuing", "card endpoints", "limits", "spend limits",
      "spending limits", "spend programs", "card programs", "card management",
      "funds", "funding", "card funding", "card budget", "balance management",
      "virtual card budget", "card allowance", "budget control", "spend allowance"]
    guides := ["guides/cards-and-funds.mdx"]
    endpoints := ["/developer/v1/limits", "/developer/v1/limits/{spend_limit_id}",
      "/developer/v1/cards/deferred/physical", "/developer/v1/spend-programs",
      "/developer/v1/card-programs"]
    warnings := ["All /cards endpoints except for /developer/v1/cards/deferred/physical are deprecated and should not be used. In Ramp's API, virtual cards are funded through 'limits' endpoints. Create a limit first to set the budget, then assign it to a user to automatically generate a virtual card."] }

/-- The user-management cluster of `_define_clusters`. -/
def userManagementCluster : Cluster :=
  { name := "user_management"
    keywords := ["users", "team", "onboarding", "permissions", "departments"]
    guides := []
    endpoints := ["/developer/v1/users", "/developer/v1/departments",
      "/developer/v1/locations", "/developer/v1/entities"]
    warnings := [] }

/-- The expense-reporting cluster of `_define_clusters`. -/
def expenseReportingCluster : Cluster :=
  { name := "expense_reporting"
    keywords := ["expenses", "transactions", "export", "reporting", "analytics"]
    guides := []
    endpoints := ["/developer/v1/transactions", "/developer/v1/receipts"]
    warnings := [] }

/-- The AI-agents cluster of `_define_clusters`. -/
def agentsCluster : Cluster :=
  { name := "agents"
    keywords := ["mcp", "agents", "ai", "claude", "automation", "workflows",
      "mcp integration", "model context protocol", "mcp server", "mcp setup"]
    guides := ["guides/ramp-mcp-remote.mdx"]
    endpoints := []
    warnings := [] }

/-- The webhooks cluster of `_define_clusters`. -/
def webhooksCluster : Cluster :=
  { name := "webhooks"
    keywords := ["webhooks", "webhook", "real-time", "events", "notifications",
      "push notifications", "event subscriptions", "webhook subscription",
      "webhook endpoint", "real time updates", "event driven", "real time",
      "push", "subscribe", "notification"]
    guides := ["webhooks.mdx"]
    endpoints := ["/developer/v1/webhooks"]
    warnings := [] }

/-- The static cluster catalog, in the dictionary (insertion) order of
`_define_clusters`. -/
def clusters : List Cluster :=
  [authenticationCluster, apWorkflowCluster, erpIntegrationCluster,
   cardManagementCluster, userManagementCluster, expenseReportingCluster,
   agentsCluster, webhooksCluster]

/-- The synonym substitution table of `_preprocess_query`, in dictionary
(insertion) order; substitutions are applied sequentially in this order. -/
def synonymTable : List (String × String) := [
  ("creation", "create"), ("issuance", "issue"), ("issuing", "issue"),
  ("provision", "create"), ("provisioning", "create"), ("generation", "create"),
  ("generating", "create"),
  ("endpoint", "api"), ("endpoints", "api"), ("route", "api"), ("routes", "api"),
  ("workflow", "process"), ("procedure", "process"), ("steps", "process"),
  ("integration", "integrate"), ("connection", "connect"), ("linking", "connect"),
  ("setup", "set up"), ("config", "configure")]

/-- The noise-phrase list of `_preprocess_query`, removed (replaced by one
space) sequentially in this order. -/
def noiseWords : List String := [
  " with ramp", " with the ramp", " using ramp", " using the ramp",
  " api", " the api", " ramp's api", " ramp api",
  " with", " using", " the", " a", " an",
  " how do i", " how to", " i want to", " i need to"]

/-- `RampKnowledgeBase._preprocess_query`: synonym substitution, then noise
removal, then whitespace collapse (`" ".join(q.split())`) and a final strip. -/
def preprocessQuery (q : List Char) : List Char :=
  let q1 := synonymTable.foldl (fun acc p => replaceB acc p.1.data p.2.data) q
  let q2 := noiseWords.foldl (fun acc w => replaceB acc w.data [' ']) q1
  stripWS (joinSep ' ' (splitWS q2))

/-- The normalised form a query is matched against: `detect_intent` lower-cases
its argument and preprocesses it. -/
def normalizeQuery (q : List Char) : List Char := preprocessQuery (pyLower q)

/-- Keywords of a cluster that occur in the normalised query
(`keyword.lower() in query_lower`), in list order. -/
def matchedKeywords (c : Cluster) (nq : List Char) : List String :=
  c.keywords.filter (fun k => containsB nq (pyLower k.data))

/-- The raw match count of a cluster against a normalised query. -/
def rawMatches (c : Cluster) (nq : List Char) : Nat := (matchedKeywords c nq).length

/-- The refined score of `detect_intent`, scaled by 10 so that it is exact:
10 per raw match, +5 per matched multi-word keyword, −3 per matched keyword in
the low-specificity set {"ap", "ai"}. -/
def score10 (c : Cluster) (nq : List Char) : Int :=
  10 * (rawMatches c nq : Int) +
    ((matchedKeywords c nq).map (fun k =>
      (if 1 < (splitWS k.data).length then (5 : Int) else 0) +
      (if k = "ap" ∨ k = "ai" then (-3 : Int) else 0))).sum

/-- The comparison key of a cluster: raw count first, then refined score. -/
def keyOf (c : Cluster) (nq : List Char) : Nat × Int := (rawMatches c nq, score10 c nq)

/-- Strict lexicographic order on (raw count, scaled score) pairs; this is the
preference order of `detect_intent`. -/
def lexLt (a b : Nat × Int) : Prop := a.1 < b.1 ∨ (a.1 = b.1 ∧ a.2 < b.2)

instance (a b : Nat × Int) : Decidable (lexLt a b) :=
  inferInstanceAs (Decidable (_ ∨ _))

/-- The accumulator loop of `detect_intent`: state is (best_match, best_raw,
best_score); a cluster with at least one raw match replaces the state when its
key beats the state key strictly. -/
def detectGo (nq : List Char) : (Option String × Nat × Int) → List Cluster → Option String
  | st, [] => st.1
  | st, c :: cs =>
    if 0 < rawMatches c nq then
      if lexLt (st.2.1, st.2.2) (keyOf c nq) then
        detectGo nq (some c.name, rawMatches c nq, score10 c nq) cs
      else detectGo nq st cs
    else detectGo nq st cs

/-- `RampKnowledgeBase.detect_intent`: lower-case, preprocess, then scan the
catalog with the accumulator loop started at (None, 0, 0). -/
def detectIntent (q : String) : Option String :=
  detectGo (normalizeQuery q.data) (none, 0, 0) clusters

end RampMCP

namespace RampMCP

/-- Spec-side recursive first-maximum: the cluster with the lexicographically
greatest (raw, score) key among those with a positive raw count, keeping the
earlier cluster on key ties. -/
def specMax (nq : List Char) : List Cluster → Option Cluster
  | [] => none
  | c :: cs =>
    if 0 < rawMatches c nq then
      match specMax nq cs with
      | none => some c
      | some m => if lexLt (keyOf c nq) (keyOf m nq) then some m else some c
    else specMax nq cs

/-- Spec-side selection predicate, following the claim text: a cluster with at
least one keyword match that no cluster of the catalog beats strictly (greater
raw count, or equal raw count and greater refined score). -/
def isFirstMax (l : List Cluster) (nq : List Char) (c : Cluster) : Bool :=
  decide (0 < rawMatches c nq ∧ ∀ d ∈ l, ¬ lexLt (keyOf c nq) (keyOf d nq))

/-- Spec-side selection rule: the first catalog cluster satisfying
`isFirstMax`, or none. -/
def specDetect (q : String) : Option String :=
  (clusters.find? (isFirstMax clusters (normalizeQuery q.data))).map Cluster.name

theorem lexLt_irrefl (a : Nat × Int) : ¬ lexLt a a := by
  simp [lexLt]

theorem lexLt_trans {a b c : Nat × Int} (h1 : lexLt a b) (h2 : lexLt b c) :
    lexLt a c := by
  rcases h1 with h1 | ⟨h1, h1s⟩ <;> rcases h2 with h2 | ⟨h2, h2s⟩ <;>
    simp only [lexLt] <;> omega

theorem lexLt_trichotomy (a b : Nat × Int) : lexLt a b ∨ a = b ∨ lexLt b a := by
  simp only [lexLt, Prod.ext_iff]
  omega

theorem not_lexLt_key_of_raw_zero {nq : List Char} {m x : Cluster}
    (h : 0 < rawMatches m nq) (h0 : rawMatches x nq = 0) :
    ¬ lexLt (keyOf m nq) (keyOf x nq) := by
  simp only [lexLt, keyOf]
  omega

/-- A cluster with no keyword match scores zero. -/
theorem score10_eq_zero {c : Cluster} {nq : List Char}
    (h : rawMatches c nq = 0) : score10 c nq = 0 := by
  have hm : matchedKeywords c nq = [] := by
    have := List.length_eq_zero.mp h
    exact this
  simp [score10, rawMatches, hm]

theorem find?_congrB {α : Type} (l : List α) (p q : α → Bool)
    (h : ∀ x ∈ l, p x = q x) : l.find? p = l.find? q := by
  induction l with
  | nil => rfl
  | cons a t ih =>
    have ha := h a (List.mem_cons_self a t)
    simp only [List.find?_cons, ha]
    cases hq : q a with
    | true => rfl
    | false => exact ih fun x hx => h x (List.mem_cons_of_mem a hx)

theorem specMax_raw_pos {nq : List Char} :
    ∀ {l : List Cluster} {m : Cluster}, specMax nq l = some m → 0 < rawMatches m nq := by
  intro l
  induction l with
  | nil => intro m h; simp [specMax] at h
  | cons c cs ih =>
    intro m h
    by_cases hc : 0 < rawMatches c nq
    · rcases e : specMax nq cs with _ | m2
      · simp only [specMax, if_pos hc, e] at h
        exact (Option.some.inj h) ▸ hc
      · simp only [specMax, if_pos hc, e] at h
        by_cases hlt : lexLt (keyOf c nq) (keyOf m2 nq)
        · rw [if_pos hlt] at h
          exact (Option.some.inj h) ▸ ih e
        · rw [if_neg hlt] at h
          exact (Option.some.inj h) ▸ hc
    · simp only [specMax, if_neg hc] at h
      exact ih h

theorem specMax_none_iff {nq : List Char} :
    ∀ {l : List Cluster}, specMax nq l = none ↔ ∀ c ∈ l, rawMatches c nq = 0 := by
  intro l
  induction l with
  | nil => simp [specMax]
  | cons c cs ih =>
    by_cases hc : 0 < rawMatches c nq
    · rcases e : specMax nq cs with _ | m2
      · constructor
        · intro h
          simp only [specMax, if_pos hc, e] at h
          exact absurd h (by simp)
        · intro h
          exact absurd (h c (List.mem_cons_self c cs)) (by omega)
      · constructor
        · intro h
          simp only [specMax, if_pos hc, e] at h
          by_cases hlt : lexLt (keyOf c nq) (keyOf m2 nq) <;> simp [hlt] at h
        · intro h
          exact absurd (h c (List.mem_cons_self c cs)) (by omega)
    · simp only [specMax, if_neg hc]
      rw [ih]
      constructor
      · intro h x hx
        rcases List.mem_cons.mp hx with rfl | hx2
        · omega
        · exact h x hx2
      · intro h x hx
        exact h x (List.mem_cons_of_mem c hx)

end RampMCP

namespace RampMCP

theorem specMax_mem {nq : List Char} :
    ∀ {l : List Cluster} {m : Cluster}, specMax nq l = some m → m ∈ l := by
  intro l
  induction l with
  | nil => intro m h; simp [specMax] at h
  | cons c cs ih =>
    intro m h
    by_cases hc : 0 < rawMatches c nq
    · rcases e : specMax nq cs with _ | m2
      · simp only [specMax, if_pos hc, e] at h
        exact (Option.some.inj h) ▸ List.mem_cons_self c cs
      · simp only [specMax, if_pos hc, e] at h
        by_cases hlt : lexLt (keyOf c nq) (keyOf m2 nq)
        · rw [if_pos hlt] at h
          exact List.mem_cons_of_mem c ((Option.some.inj h) ▸ ih e)
        · rw [if_neg hlt] at h
          exact (Option.some.inj h) ▸ List.mem_cons_self c cs
    · simp only [specMax, if_neg hc] at h
      exact List.mem_cons_of_mem c (ih h)

theorem specMax_le {nq : List Char} :
    ∀ {l : List Cluster} {m : Cluster}, specMax nq l = some m →
      ∀ c ∈ l, ¬ lexLt (keyOf m nq) (keyOf c nq) := by
  intro l
  induction l with
  | nil => intro m h; simp [specMax] at h
  | cons c cs ih =>
    intro m h x hx
    have hmpos : 0 < rawMatches m nq := specMax_raw_pos h
    by_cases hc : 0 < rawMatches c nq
    · rcases e : specMax nq cs with _ | m2
      · simp only [specMax, if_pos hc, e] at h
        have hmc : m = c := (Option.some.inj h).symm
        rcases List.mem_cons.mp hx with rfl | hx2
        · exact hmc ▸ lexLt_irrefl _
        · have hx0 : rawMatches x nq = 0 := specMax_none_iff.mp e x hx2
          exact not_lexLt_key_of_raw_zero hmpos hx0
      · simp only [specMax, if_pos hc, e] at h
        by_cases hlt : lexLt (keyOf c nq) (keyOf m2 nq)
        · rw [if_pos hlt] at h
          have hmm : m = m2 := (Option.some.inj h).symm
          subst hmm
          rcases List.mem_cons.mp hx with rfl | hx2
          · intro hcon
            exact lexLt_irrefl _ (lexLt_trans hlt hcon)
          · exact ih e x hx2
        · rw [if_neg hlt] at h
          have hmc : m = c := (Option.some.inj h).symm
          subst hmc
          rcases List.mem_cons.mp hx with rfl | hx2
          · exact lexLt_irrefl _
          · intro hcon
            have hm2x := ih e x hx2
            rcases lexLt_trichotomy (keyOf m2 nq) (keyOf x nq) with h1 | h1 | h1
            · exact hm2x h1
            · exact hlt (h1 ▸ hcon)
            · exact hlt (lexLt_trans hcon h1)
    · simp only [specMax, if_neg hc] at h
      rcases List.mem_cons.mp hx with rfl | hx2
      · have hx0 : rawMatches x nq = 0 := by omega
        exact not_lexLt_key_of_raw_zero hmpos hx0
      · exact ih h x hx2

theorem specMax_eq_find? {nq : List Char} :
    ∀ l : List Cluster, specMax nq l = l.find? (isFirstMax l nq) := by
  intro l
  induction l with
  | nil => rfl
  | cons c cs ih =>
    by_cases hc : 0 < rawMatches c nq
    · rcases e : specMax nq cs with _ | m2
      · have hall : ∀ x ∈ cs, rawMatches x nq = 0 := specMax_none_iff.mp e
        have hpred : isFirstMax (c :: cs) nq c = true := by
          simp only [isFirstMax, decide_eq_true_eq]
          refine ⟨hc, fun d hd => ?_⟩
          rcases List.mem_cons.mp hd with rfl | hd2
          · exact lexLt_irrefl _
          · exact not_lexLt_key_of_raw_zero hc (hall d hd2)
        simp [specMax, hc, e, List.find?_cons, hpred]
      · by_cases hlt : lexLt (keyOf c nq) (keyOf m2 nq)
        · have hm2cs : m2 ∈ cs := specMax_mem e
          have hpred : isFirstMax (c :: cs) nq c = false := by
            simp only [isFirstMax, decide_eq_false_iff_not, not_and, not_forall]
            intro _
            exact ⟨m2, List.mem_cons_of_mem c hm2cs, by simpa using hlt⟩
          have hcongr : cs.find? (isFirstMax (c :: cs) nq) = cs.find? (isFirstMax cs nq) := by
            apply find?_congrB
            intro x hx
            simp only [isFirstMax, decide_eq_decide]
            constructor
            · rintro ⟨h1, h2⟩
              exact ⟨h1, fun d hd => h2 d (List.mem_cons_of_mem c hd)⟩
            · rintro ⟨h1, h2⟩
              refine ⟨h1, fun d hd => ?_⟩
              rcases List.mem_cons.mp hd with rfl | hd2
              · intro hcon
                exact h2 m2 hm2cs (lexLt_trans hcon hlt)
              · exact h2 d hd2
          have : specMax nq (c :: cs) = some m2 := by
            simp [specMax, hc, e, hlt]
          rw [this, List.find?_cons, hpred, hcongr, ← ih, e]
        · have hpred : isFirstMax (c :: cs) nq c = true := by
            simp only [isFirstMax, decide_eq_true_eq]
            refine ⟨hc, fun d hd => ?_⟩
            rcases List.mem_cons.mp hd with rfl | hd2
            · exact lexLt_irrefl _
            · intro hcon
              have hm2d := specMax_le e d hd2
              rcases lexLt_trichotomy (keyOf m2 nq) (keyOf d nq) with h1 | h1 | h1
              · exact hm2d h1
              · exact hlt (h1 ▸ hcon)
              · exact hlt (lexLt_trans hcon h1)
          have : specMax nq (c :: cs) = some c := by
            simp [specMax, hc, e, hlt]
          rw [this, List.find?_cons, hpred]
    · have hpred : isFirstMax (c :: cs) nq c = false := by
        simp only [isFirstMax, decide_eq_false_iff_not, not_and]
        intro hcon
        exact absurd hcon hc
      have hcongr : cs.find? (isFirstMax (c :: cs) nq) = cs.find? (isFirstMax cs nq) := by
        apply find?_congrB
        intro x hx
        simp only [isFirstMax, decide_eq_decide]
        constructor
        · rintro ⟨h1, h2⟩
          exact ⟨h1, fun d hd => h2 d (List.mem_cons_of_mem c hd)⟩
        · rintro ⟨h1, h2⟩
          refine ⟨h1, fun d hd => ?_⟩
          rcases List.mem_cons.mp hd with rfl | hd2
          · have hc0 : rawMatches d nq = 0 := by omega
            exact not_lexLt_key_of_raw_zero h1 hc0
          · exact h2 d hd2
      have : specMax nq (c :: cs) = specMax nq cs := by
        simp [specMax, hc]
      rw [this, List.find?_cons, hpred, hcongr, ih]

end RampMCP

namespace RampMCP

/-- Characterisation of the accumulator loop by the spec-side first maximum:
from any start state, the loop returns the first-maximum cluster when its key
beats the state key, and the state's best match otherwise. -/
theorem detectGo_spec {nq : List Char} :
    ∀ (cs : List Cluster) (b : Option String) (r : Nat) (s : Int),
      detectGo nq (b, r, s) cs =
        match specMax nq cs with
        | none => b
        | some m => if lexLt (r, s) (keyOf m nq) then some m.name else b := by
  intro cs
  induction cs with
  | nil => intro b r s; rfl
  | cons c cs ih =>
    intro b r s
    by_cases hc : 0 < rawMatches c nq
    · by_cases hst : lexLt (r, s) (keyOf c nq)
      · have hupd : detectGo nq (b, r, s) (c :: cs) =
            detectGo nq (some c.name, rawMatches c nq, score10 c nq) cs := by
          simp [detectGo, hc, keyOf] at *
          simp [show lexLt (r, s) (rawMatches c nq, score10 c nq) from hst]
        rw [hupd, ih]
        rcases e : specMax nq cs with _ | m2
        · simp [specMax, hc, e]
          rw [if_pos hst]
        · by_cases hlt : lexLt (keyOf c nq) (keyOf m2 nq)
          · have : specMax nq (c :: cs) = some m2 := by simp [specMax, hc, e, hlt]
            rw [this]
            have h1 : lexLt ((keyOf c nq).1, (keyOf c nq).2) (keyOf m2 nq) := by
              simpa using hlt
            simp only [keyOf] at h1 ⊢
            rw [if_pos h1, if_pos (by simpa [keyOf] using lexLt_trans hst hlt)]
          · have : specMax nq (c :: cs) = some c := by simp [specMax, hc, e, hlt]
            rw [this]
            have h1 : ¬ lexLt ((keyOf c nq).1, (keyOf c nq).2) (keyOf m2 nq) := by
              simpa using hlt
            simp only [keyOf] at h1 ⊢
            rw [if_neg h1, if_pos (by simpa [keyOf] using hst)]
      · have hupd : detectGo nq (b, r, s) (c :: cs) = detectGo nq (b, r, s) cs := by
          simp only [detectGo, if_pos hc, keyOf] at *
          simp [show ¬ lexLt (r, s) (rawMatches c nq, score10 c nq) from hst]
        rw [hupd, ih]
        rcases e : specMax nq cs with _ | m2
        · simp [specMax, hc, e]
          rw [if_neg hst]
        · by_cases hlt : lexLt (keyOf c nq) (keyOf m2 nq)
          · have : specMax nq (c :: cs) = some m2 := by simp [specMax, hc, e, hlt]
            rw [this]
          · have : specMax nq (c :: cs) = some c := by simp [specMax, hc, e, hlt]
            rw [this]
            have hnot : ¬ lexLt (r, s) (keyOf m2 nq) := by
              intro hcon
              rcases lexLt_trichotomy (keyOf m2 nq) (keyOf c nq) with h1 | h1 | h1
              · exact hst (lexLt_trans hcon h1)
              · exact hst (h1 ▸ hcon)
              · exact hlt h1
            simp [hnot, hst]
    · have hupd : detectGo nq (b, r, s) (c :: cs) = detectGo nq (b, r, s) cs := by
        simp [detectGo, hc]
      have hsm : specMax nq (c :: cs) = specMax nq cs := by simp [specMax, hc]
      rw [hupd, ih, hsm]

/-- The embedded `detect_intent` equals the spec-side selection: the first
catalog cluster whose (raw, score) key is not beaten by any cluster. -/
theorem detectIntent_eq_specFind (q : String) :
    detectIntent q =
      ((clusters.find? (isFirstMax clusters (normalizeQuery q.data))).map Cluster.name) := by
  rw [detectIntent, detectGo_spec, ← specMax_eq_find?]
  rcases e : specMax (normalizeQuery q.data) clusters with _ | m
  · rfl
  · have hpos := specMax_raw_pos e
    have h0 : lexLt 0 (keyOf m (normalizeQuery q.data)) := Or.inl hpos
    simp [h0]

/-- The embedded `detect_intent` returns none exactly when no cluster has any
keyword match. -/
theorem detectIntent_none_iff (q : String) :
    detectIntent q = none ↔
      ∀ c ∈ clusters, rawMatches c (normalizeQuery q.data) = 0 := by
  rw [detectIntent, detectGo_spec, ← specMax_none_iff]
  rcases e : specMax (normalizeQuery q.data) clusters with _ | m
  · simp
  · have hpos := specMax_raw_pos e
    have h0 : lexLt 0 (keyOf m (normalizeQuery q.data)) := Or.inl hpos
    simp [h0, e]

end RampMCP

namespace RampMCP

set_option maxRecDepth 100000

/-- C2: for every query, `detect_intent` returns the cluster with the strictly
greatest raw keyword-match count, breaking raw-count ties by the greater
refined score (raw + 0.5 per matched multi-word keyword − 0.3 per matched
keyword in {"ap", "ai"}, represented ×10), breaking remaining ties by catalog
order (the first cluster whose key no cluster beats), and returns none exactly
when no cluster has any keyword match. -/
theorem detect_intent_selection_rule (q : String) :
    detectIntent q = specDetect q ∧
      (detectIntent q = none ↔
        ∀ c ∈ clusters, rawMatches c (normalizeQuery q.data) = 0) :=
  ⟨by rw [detectIntent_eq_specFind]; rfl, detectIntent_none_iff q⟩

/-- C3 (amended): for every query whose normalised form contains at least one
keyword of a cluster `c` and no keyword of any other cluster, `detect_intent`
returns `c`.  (As originally stated — with the keyword contained in the raw
query — the claim fails, because normalisation can rewrite the keyword away;
see the counterexample on the query "setup".) -/
theorem detect_intent_unique_cluster (q : String) (c : Cluster)
    (hc : c ∈ clusters)
    (hpos : 0 < rawMatches c (normalizeQuery q.data))
    (hothers : ∀ d ∈ clusters, d ≠ c → rawMatches d (normalizeQuery q.data) = 0) :
    detectIntent q = some c.name := by
  rw [detectIntent_eq_specFind]
  rcases e : clusters.find? (isFirstMax clusters (normalizeQuery q.data)) with _ | y
  · exfalso
    have hnone := List.find?_eq_none.mp e c hc
    apply hnone
    simp only [isFirstMax, decide_eq_true_eq]
    refine ⟨hpos, fun d hd => ?_⟩
    by_cases hdc : d = c
    · subst hdc
      exact lexLt_irrefl _
    · exact not_lexLt_key_of_raw_zero hpos (hothers d hd hdc)
  · have hy := List.find?_some e
    simp only [isFirstMax, decide_eq_true_eq] at hy
    have hymem : y ∈ clusters := List.mem_of_find?_eq_some e
    by_cases hyc : y = c
    · subst hyc
      rfl
    · exact absurd (hothers y hymem hyc) (by omega)

/-- Witness for C3: the query "webhook" normalises to itself, matches only the
webhooks cluster, and is classified as "webhooks". -/
theorem detect_intent_unique_cluster_witness :
    webhooksCluster ∈ clusters ∧
      0 < rawMatches webhooksCluster (normalizeQuery "webhook".data) ∧
      detectIntent "webhook" = some "webhooks" :=
  ⟨by decide, by decide,
    detect_intent_unique_cluster "webhook" webhooksCluster (by decide) (by decide)
      (by decide)⟩

/-- Counterexample for C3 as stated: the query "setup" contains the keyword
"setup", which belongs to the authentication cluster and to no other cluster,
and contains no other cluster's keyword; yet `detect_intent` returns none,
because preprocessing rewrites "setup" to "set up" before matching. -/
theorem detect_intent_unique_cluster_cex :
    ("setup" ∈ authenticationCluster.keywords ∧
      containsB "setup".data "setup".data = true ∧
      (∀ d ∈ clusters, d ≠ authenticationCluster →
        ∀ k ∈ d.keywords, containsB "setup".data k.data = false)) ∧
    detectIntent "setup" = none := by
  decide

end RampMCP

namespace RampMCP

/-- One entry of the flattened endpoint index built by
`GetEndpointSchemaTool._extract_all_endpoints` (the OpenAPI data file is
external input, so the index is a parameter of every statement). -/
structure Endpoint where
  path : String
  method : String
deriving DecidableEq, Repr

/-- The fallback priority order of `_find_matching_endpoints`. -/
def methodPriority : List String := ["GET", "POST", "PUT", "PATCH", "DELETE"]

/-- `GetEndpointSchemaTool._find_matching_endpoints`: first collect every
exact path match (filtered by method when one is given); only if that list is
empty and no method was given, walk the priority order and take the first
index entry with the wanted path and method. -/
def findMatchingEndpoints (index : List Endpoint) (endpoint : String)
    (method : Option String) : List Endpoint :=
  let exactMatches := index.filter (fun e =>
    e.path == endpoint &&
      (match method with
       | none => true
       | some m => e.method == m))
  if exactMatches.isEmpty ∧ method = none then
    match methodPriority.findSome? (fun m =>
      index.find? (fun e => e.path == endpoint && e.method == m)) with
    | some e => [e]
    | none => []
  else exactMatches

/-- `GetEndpointSchemaTool._find_similar_endpoints`: endpoints whose
lower-cased path contains some non-empty slash-delimited segment of the
lower-cased query path; the hits are formatted "METHOD path", deduplicated,
sorted and capped to 10. -/
def findSimilarEndpoints (index : List Endpoint) (endpoint : String) : List String :=
  let parts := (splitOnSep '/' (pyLower endpoint.data)).filter (fun p => ¬ p.isEmpty)
  let similar := index.filterMap (fun e =>
    if parts.any (fun p => containsB (pyLower e.path.data) p) then
      some (e.method ++ " " ++ e.path)
    else none)
  ((sortStr (dedupB (similar.map String.data))).take 10).map String.mk

/-- The suggestion block appended to the not-found message (empty when there
are no similar endpoints). -/
def suggestionText (similar : List String) : String :=
  if similar.isEmpty then ""
  else
    "\n\n**Similar endpoints available:**\n" ++
      String.intercalate "\n" ((similar.take 5).map (fun ep => "• " ++ ep))

/-- The not-found message of `GetEndpointSchemaTool.execute`. -/
def notFoundMessage (endpoint : String) (method : Option String)
    (similar : List String) : String :=
  "❌ Endpoint not found: `" ++
    (match method with | some m => m ++ " " | none => "") ++
    endpoint ++ "`" ++ suggestionText similar

/-- Result of one `get_endpoint_schema` call; the embedding is total, which
models the source's catch-all boundary (no exception leaves `execute`). -/
inductive SchemaToolResult where
  | emptyArg (msg : String)
  | notFound (msg : String)
  | found (endpoints : List Endpoint)
deriving DecidableEq, Repr

/-- `GetEndpointSchemaTool.execute` up to the formatting of found schemas:
strip the endpoint argument, upper-case the method when given, refuse an empty
path, and answer not-found (with similar-endpoint suggestions) when nothing
matches. -/
def executeGetEndpointSchema (index : List Endpoint) (endpointArg : String)
    (methodArg : Option String) : SchemaToolResult :=
  let endpoint := String.mk (stripWS endpointArg.data)
  let method := methodArg.map (fun m => String.mk (pyUpper m.data))
  if endpoint = "" then
    .emptyArg "❌ Please provide an endpoint path (e.g., '/developer/v1/bills')"
  else
    let matching := findMatchingEndpoints index endpoint method
    if matching.isEmpty then
      .notFound (notFoundMessage endpoint method (findSimilarEndpoints index endpoint))
    else
      .found matching

end RampMCP

namespace RampMCP

theorem string_append_empty (s : String) : s ++ "" = s := by
  cases s with
  | mk l =>
    show String.mk (l ++ []) = String.mk l
    rw [List.append_nil]

/-- With no method given, `_find_matching_endpoints` returns every index entry
with the queried path: the GET-first priority fallback only runs when the
first pass found nothing, and then it finds nothing either. -/
theorem findMatching_no_method_eq_filter (index : List Endpoint) (endpoint : String) :
    findMatchingEndpoints index endpoint none =
      index.filter (fun e => e.path == endpoint) := by
  unfold findMatchingEndpoints
  simp only [Bool.and_true]
  rcases h : (index.filter (fun e => e.path == endpoint)).isEmpty with _ | _
  · simp [h]
  · have hnil : index.filter (fun e => e.path == endpoint) = [] :=
      List.isEmpty_iff.mp h
    have hnone : ∀ x ∈ index, ¬ (x.path == endpoint) = true := by
      intro x hx hcon
      have : x ∈ index.filter (fun e => e.path == endpoint) :=
        List.mem_filter.mpr ⟨hx, hcon⟩
      simp [hnil] at this
    have hfs : methodPriority.findSome? (fun m =>
        index.find? (fun e => e.path == endpoint && e.method == m)) = none := by
      apply List.findSome?_eq_none_iff.mpr
      intro m _
      apply List.find?_eq_none.mpr
      intro x hx
      simp only [Bool.and_eq_true, not_and]
      intro hp _
      exact hnone x hx hp
    simp [h, hfs, hnil]

/-- C1 evaluation: on an index where the path "/p" defines both GET and POST,
a schema request for "/p" with no method returns both entries, not the single
GET entry the specification predicts; together with the filter
characterisation this shows the priority fallback is dead code. -/
theorem findMatching_multi_method_eval :
    (∀ index endpoint, findMatchingEndpoints index endpoint none =
      index.filter (fun e => e.path == endpoint)) ∧
    findMatchingEndpoints [⟨"/p", "GET"⟩, ⟨"/p", "POST"⟩] "/p" none =
      [⟨"/p", "GET"⟩, ⟨"/p", "POST"⟩] ∧
    findMatchingEndpoints [⟨"/p", "GET"⟩, ⟨"/p", "POST"⟩] "/p" none ≠
      [⟨"/p", "GET"⟩] ∧
    executeGetEndpointSchema [⟨"/p", "GET"⟩, ⟨"/p", "POST"⟩] "/p" none =
      .found [⟨"/p", "GET"⟩, ⟨"/p", "POST"⟩] :=
  ⟨findMatching_no_method_eq_filter, by decide, by decide, by decide⟩

/-- C8: a `get_endpoint_schema` call with a non-empty path that matches no
loaded endpoint returns the not-found message built from the similar-endpoint
list (segment overlap, case-insensitive, deduplicated, sorted, capped to 10),
shows at most 5 suggestions, and shows none when no segment overlaps; the
embedding is total, so no exception escapes the tool. -/
theorem schema_not_found (index : List Endpoint) (endpointArg : String)
    (methodArg : Option String)
    (hne : String.mk (stripWS endpointArg.data) ≠ "")
    (hmatch : findMatchingEndpoints index (String.mk (stripWS endpointArg.data))
      (methodArg.map (fun m => String.mk (pyUpper m.data))) = []) :
    executeGetEndpointSchema index endpointArg methodArg =
      .notFound (notFoundMessage (String.mk (stripWS endpointArg.data))
        (methodArg.map (fun m => String.mk (pyUpper m.data)))
        (findSimilarEndpoints index (String.mk (stripWS endpointArg.data)))) ∧
    ((findSimilarEndpoints index (String.mk (stripWS endpointArg.data))).take 5).length ≤ 5 ∧
    ((∀ e ∈ index, ∀ p ∈ (splitOnSep '/' (pyLower (stripWS endpointArg.data))).filter
        (fun p => ¬ p.isEmpty), containsB (pyLower e.path.data) p = false) →
      findSimilarEndpoints index (String.mk (stripWS endpointArg.data)) = [] ∧
      executeGetEndpointSchema index endpointArg methodArg =
        .notFound ("❌ Endpoint not found: `" ++
          (match methodArg.map (fun m => String.mk (pyUpper m.data)) with
           | some m => m ++ " " | none => "") ++
          String.mk (stripWS endpointArg.data) ++ "`")) := by
  refine ⟨?_, ?_, ?_⟩
  · unfold executeGetEndpointSchema
    simp only [if_neg hne, hmatch]
    rfl
  · simp only [List.length_take]
    omega
  · intro hover
    have hsim : findSimilarEndpoints index (String.mk (stripWS endpointArg.data)) = [] := by
      unfold findSimilarEndpoints
      have hfm : index.filterMap (fun e =>
          if ((splitOnSep '/' (pyLower (String.mk (stripWS endpointArg.data)).data)).filter
              (fun p => ¬ p.isEmpty)).any (fun p => containsB (pyLower e.path.data) p) then
            some (e.method ++ " " ++ e.path)
          else none) = [] := by
        apply List.filterMap_eq_nil_iff.mpr
        intro e he
        refine if_neg (fun hC => ?_)
        rcases List.any_eq_true.mp hC with ⟨p, hp, hcp⟩
        have h0 : containsB (pyLower e.path.data) p = false := hover e he p hp
        rw [h0] at hcp
        exact Bool.false_ne_true hcp
      simp only [hfm]
      rfl
    refine ⟨hsim, ?_⟩
    unfold executeGetEndpointSchema
    simp only [if_neg hne, hmatch]
    have : notFoundMessage (String.mk (stripWS endpointArg.data))
        (methodArg.map (fun m => String.mk (pyUpper m.data)))
        (findSimilarEndpoints index (String.mk (stripWS endpointArg.data))) =
        "❌ Endpoint not found: `" ++
          (match methodArg.map (fun m => String.mk (pyUpper m.data)) with
           | some m => m ++ " " | none => "") ++
          String.mk (stripWS endpointArg.data) ++ "`" := by
      rw [hsim]
      unfold notFoundMessage suggestionText
      simp only [List.isEmpty_nil, if_pos rfl]
      exact string_append_empty _
    simp only [this]
    rfl

/-- Witness for C8, mirroring the spec's example: an index holding only
GET /developer/v1/bills, queried for /developer/v1/nonexistent. -/
theorem schema_not_found_witness :
    findMatchingEndpoints [⟨"/developer/v1/bills", "GET"⟩]
        "/developer/v1/nonexistent" none = [] ∧
    executeGetEndpointSchema [⟨"/developer/v1/bills", "GET"⟩]
        "/developer/v1/nonexistent" none =
      .notFound (notFoundMessage "/developer/v1/nonexistent" none
        (findSimilarEndpoints [⟨"/developer/v1/bills", "GET"⟩]
          "/developer/v1/nonexistent")) :=
  ⟨by decide,
    (schema_not_found [⟨"/developer/v1/bills", "GET"⟩] "/developer/v1/nonexistent"
      none (by decide) (by decide)).1⟩

end RampMCP

namespace RampMCP

/-- Fueled scanner for `re.sub(r"<[^>]+>", "", text)`: at `<`, a maximal run of
at least one non-`>` character followed by `>` is deleted and scanning resumes
after the `>`; otherwise the character is kept.  Fuel `≥ l.length` is exact. -/
def stripTagsGo : Nat → List Char → List Char
  | _, [] => []
  | 0, l => l
  | fuel + 1, c :: rest =>
    if c = '<' then
      let p := rest.takeWhile (fun d => d ≠ '>')
      match p.isEmpty, rest.dropWhile (fun d => d ≠ '>') with
      | false, _ :: qt => stripTagsGo fuel qt
      | _, _ => c :: stripTagsGo fuel rest
    else c :: stripTagsGo fuel rest

/-- The tag-stripping regex pass of `_extract_markdown_section`. -/
def stripTags (l : List Char) : List Char := stripTagsGo l.length l

/-- Fueled scanner for `re.sub(r"{[^}]+}", "", text)`, like `stripTagsGo` with
braces. -/
def stripBracesGo : Nat → List Char → List Char
  | _, [] => []
  | 0, l => l
  | fuel + 1, c :: rest =>
    if c = '{' then
      let p := rest.takeWhile (fun d => d ≠ '}')
      match p.isEmpty, rest.dropWhile (fun d => d ≠ '}') with
      | false, _ :: qt => stripBracesGo fuel qt
      | _, _ => c :: stripBracesGo fuel rest
    else c :: stripBracesGo fuel rest

/-- The brace-stripping regex pass of `_extract_markdown_section`. -/
def stripBraces (l : List Char) : List Char := stripBracesGo l.length l

/-- The word the import-stripping regex starts with. -/
def importWord : List Char := "import".data

/-- Fueled scanner for `re.sub(r"import\s+.*", "", text)`: an occurrence of
"import" followed by at least one whitespace character deletes the word, the
maximal whitespace run (newlines included, as `\s` does) and the remainder of
the line up to the next newline, which is kept. -/
def stripImportsGo : Nat → List Char → List Char
  | _, [] => []
  | 0, l => l
  | fuel + 1, c :: rest =>
    if isPrefixB importWord (c :: rest) then
      let after := (c :: rest).drop 6
      match (after.takeWhile isPySpace).isEmpty with
      | true => c :: stripImportsGo fuel rest
      | false =>
        stripImportsGo fuel ((after.dropWhile isPySpace).dropWhile (fun d => d ≠ '\n'))
    else c :: stripImportsGo fuel rest

/-- The import-stripping regex pass of `_extract_markdown_section`. -/
def stripImports (l : List Char) : List Char := stripImportsGo l.length l

/-- The three regex cleanups of `_extract_markdown_section`, in source order:
tags, then brace expressions, then import directives. -/
def cleanupSection (l : List Char) : List Char := stripImports (stripBraces (stripTags l))

/-- A line at which a section ends: after trimming it starts with "## ",
"---" or "# ". -/
def isBoundaryLine (l : List Char) : Bool :=
  isPrefixB "## ".data (stripWS l) || isPrefixB "---".data (stripWS l) ||
    isPrefixB "# ".data (stripWS l)

/-- Index of the line ending a section: the first boundary line of the lines
after the header, or their count when no boundary follows. -/
def sectionEndIdx (rest : List (List Char)) : Nat :=
  match rest.findIdx? isBoundaryLine with
  | some j => j
  | none => rest.length

/-- `RampKnowledgeBase._extract_markdown_section`: find the first line whose
trimmed form starts with the header, cut at the next boundary line (or the
end), join, trim, and run the regex cleanups. -/
def extractMarkdownSection (content header : String) : String :=
  match (splitOnSep '\n' content.data).findIdx?
      (fun l => isPrefixB header.data (stripWS l)) with
  | none => ""
  | some i =>
    String.mk (cleanupSection (stripWS (joinSep '\n'
      (((splitOnSep '\n' content.data).drop (i + 1)).take
        (sectionEndIdx ((splitOnSep '\n' content.data).drop (i + 1)))))))

/-- The extraction exactly as the claim words it (no whitespace trim of the
joined section text); used only to exhibit the divergence. -/
def extractClaimC4 (content header : String) : String :=
  match (splitOnSep '\n' content.data).findIdx?
      (fun l => isPrefixB header.data (stripWS l)) with
  | none => ""
  | some i =>
    String.mk (cleanupSection (joinSep '\n'
      (((splitOnSep '\n' content.data).drop (i + 1)).takeWhile
        (fun l => ! isBoundaryLine l))))

theorem take_findIdx?_eq_takeWhile {α : Type} (p : α → Bool) (l : List α) :
    l.take (match l.findIdx? p with | some j => j | none => l.length) =
      l.takeWhile (fun x => ! p x) := by
  induction l with
  | nil => rfl
  | cons a t ih =>
    rw [List.findIdx?_cons]
    cases hpa : p a with
    | true => simp [List.takeWhile_cons, hpa]
    | false =>
      rw [if_neg (by simp [hpa]), List.findIdx?_succ]
      rcases e : t.findIdx? p with _ | j <;> rw [e] at ih
      · simp only [e, Option.map_none', List.length_cons, List.take_succ_cons,
          List.takeWhile_cons, hpa, Bool.not_false, if_pos]
        exact congrArg (a :: ·) ih
      · simp only [e, Option.map_some', List.take_succ_cons, List.takeWhile_cons,
          hpa, Bool.not_false, if_pos]
        exact congrArg (a :: ·) ih

end RampMCP

namespace RampMCP

/-- C4 (amended): section extraction returns the empty string when no line,
after trimming, starts with the header; otherwise it returns the text between
the first such line and the next boundary line ("## ", "# ", "---", or the
end), trimmed of surrounding whitespace, with markup tags, curly-brace
expressions and import-style line remainders stripped.  (As originally
stated — without the whitespace trim — the claim fails; see the
counterexample.) -/
theorem extract_section_spec (content header : String) :
    ((∀ l ∈ splitOnSep '\n' content.data, isPrefixB header.data (stripWS l) = false) →
      extractMarkdownSection content header = "") ∧
    (∀ i, (splitOnSep '\n' content.data).findIdx?
        (fun l => isPrefixB header.data (stripWS l)) = some i →
      extractMarkdownSection content header =
        String.mk (cleanupSection (stripWS (joinSep '\n'
          (((splitOnSep '\n' content.data).drop (i + 1)).takeWhile
            (fun l => ! isBoundaryLine l)))))) := by
  constructor
  · intro hall
    have hnone : (splitOnSep '\n' content.data).findIdx?
        (fun l => isPrefixB header.data (stripWS l)) = none :=
      List.findIdx?_eq_none_iff.mpr hall
    unfold extractMarkdownSection
    rw [hnone]
  · intro i hi
    unfold extractMarkdownSection
    rw [hi]
    have ht : ∀ rest : List (List Char),
        rest.take (sectionEndIdx rest) = rest.takeWhile (fun l => ! isBoundaryLine l) := by
      intro rest
      rw [sectionEndIdx, take_findIdx?_eq_takeWhile isBoundaryLine rest]
    exact congrArg (fun l => String.mk (cleanupSection (stripWS (joinSep '\n' l))))
      (ht ((splitOnSep '\n' content.data).drop (i + 1)))

/-- Witness for C4 at a concrete document: the header is found at line 0 and
the extracted text is the line between it and the next "## " boundary. -/
theorem extract_section_spec_witness :
    (splitOnSep '\n' ("## A\nhello\n## B" : String).data).findIdx?
        (fun l => isPrefixB ("## A" : String).data (stripWS l)) = some 0 ∧
    extractMarkdownSection "## A\nhello\n## B" "## A" =
      String.mk (cleanupSection (stripWS (joinSep '\n'
        (((splitOnSep '\n' ("## A\nhello\n## B" : String).data).drop 1).takeWhile
          (fun l => ! isBoundaryLine l))))) :=
  ⟨by decide, (extract_section_spec "## A\nhello\n## B" "## A").2 0 (by decide)⟩

/-- Counterexample for C4 as stated: on a section whose first line is blank,
the code trims the joined text, so the result is not exactly the text between
the header and the next boundary with only the three strip passes applied. -/
theorem extract_section_trim_cex :
    extractMarkdownSection "## A\n\nx\n## B" "## A" = "x" ∧
    extractClaimC4 "## A\n\nx\n## B" "## A" = "\nx" ∧
    extractMarkdownSection "## A\n\nx\n## B" "## A" ≠
      extractClaimC4 "## A\n\nx\n## B" "## A" := by
  decide

end RampMCP

namespace RampMCP

/-- Leaf JSON values that `_generate_schema_example` produces for one
property. -/
inductive JsonLeaf where
  | null
  | bool (b : Bool)
  | str (s : String)
  | int (n : Int)
  | dec (mantissa : Int) (scale : Nat)
  | strList (xs : List String)
deriving DecidableEq, Repr

/-- One level of JSON nesting: a leaf or an object of leaves (the function
never nests deeper). -/
inductive JsonInner where
  | leaf (v : JsonLeaf)
  | obj (fields : List (String × JsonLeaf))
deriving DecidableEq, Repr

/-- The top-level JSON document `_generate_schema_example` returns: always an
object (non-object schemas yield none). -/
inductive JsonDoc where
  | obj (fields : List (String × JsonInner))
deriving DecidableEq, Repr

/-- The fragment of an OpenAPI property schema the example generator reads. -/
structure PropSchema where
  type : Option String
deriving DecidableEq, Repr

/-- The fragment of an OpenAPI schema the example generator reads: declared
type and declared properties in insertion order. -/
structure JSchema where
  type : Option String
  properties : List (String × PropSchema)
deriving DecidableEq, Repr

/-- The per-property example of `_generate_schema_example`, keyed on the
declared type (defaulted to "string") and the property name.  The float
literal 123.45 is represented exactly as `dec 12345 2`. -/
def propExampleValue (name : String) (t : String) : JsonLeaf :=
  if t == "string" then
    if isSuffixB "_id".data name.data || name == "id" then .str "uuid-here"
    else if containsB name.data "date".data || containsB name.data "time".data then
      .str "2024-01-01T00:00:00Z"
    else if name == "email" then .str "user@company.com"
    else .str "string"
  else if t == "integer" then .int 123
  else if t == "number" then .dec 12345 2
  else if t == "boolean" then .bool true
  else if t == "array" then .strList ["item1", "item2"]
  else .str "value"

/-- The example object built from the declared properties, in insertion
order. -/
def propsExample (props : List (String × PropSchema)) : List (String × JsonLeaf) :=
  props.map (fun p => (p.1, propExampleValue p.1 (p.2.type.getD "string")))

/-- The placeholder pagination object of the response envelope. -/
def pageObject : JsonInner :=
  .obj [("next", .str "https://api.ramp.com/developer/v1/endpoint?start=cursor"),
        ("prev", .null)]

/-- `GetEndpointSchemaTool._generate_schema_example`: build the per-property
example for an object schema; for responses whose example has no "data" key
and whose declared properties include neither "data" nor "page", wrap it (or
the default {"id": "uuid-here"} when it is empty) in the data/page envelope. -/
def generateSchemaExample (s : JSchema) (isResponse : Bool) : Option JsonDoc :=
  match s.type with
  | some "object" =>
    if isResponse ∧ ¬ ((propsExample s.properties).any (fun kv => kv.1 == "data")) = true then
      if s.properties.any (fun p => p.1 == "data") || s.properties.any (fun p => p.1 == "page") then
        some (.obj ((propsExample s.properties).map (fun kv => (kv.1, JsonInner.leaf kv.2))))
      else
        some (.obj [("data",
            if (propsExample s.properties).isEmpty then
              JsonInner.obj [("id", .str "uuid-here")]
            else JsonInner.obj (propsExample s.properties)),
          ("page", pageObject)])
    else some (.obj ((propsExample s.properties).map (fun kv => (kv.1, JsonInner.leaf kv.2))))
  | _ => none

theorem propsExample_isEmpty (props : List (String × PropSchema)) :
    (propsExample props).isEmpty = props.isEmpty := by
  cases props <;> rfl

theorem propsExample_any_name (props : List (String × PropSchema)) (n : String) :
    (propsExample props).any (fun kv => kv.1 == n) = props.any (fun p => p.1 == n) := by
  induction props with
  | nil => rfl
  | cons a t ih =>
    show ((a.1 == n) || (propsExample t).any (fun kv => kv.1 == n)) =
      ((a.1 == n) || t.any (fun p => p.1 == n))
    rw [ih]

end RampMCP

namespace RampMCP

/-- C5 (amended): a response example for an object schema declaring neither
"data" nor "page" wraps the per-property example object — or, when the schema
declares no properties, the default object {"id": "uuid-here"} — under a
"data" key next to a "page" object with "next"/"prev" placeholder cursors; a
response example for an object schema declaring "data" or "page" is the
unwrapped per-property object.  (As originally stated the claim fails for the
empty-properties schema, whose per-property object is empty but whose envelope
carries the default object; see the counterexample.) -/
theorem response_example_wrapping (props : List (String × PropSchema)) :
    ((∀ p ∈ props, p.1 ≠ "data" ∧ p.1 ≠ "page") →
      generateSchemaExample ⟨some "object", props⟩ true =
        some (.obj [("data",
            if props.isEmpty then JsonInner.obj [("id", .str "uuid-here")]
            else JsonInner.obj (propsExample props)),
          ("page", pageObject)])) ∧
    ((∃ p ∈ props, p.1 = "data" ∨ p.1 = "page") →
      generateSchemaExample ⟨some "object", props⟩ true =
        some (.obj ((propsExample props).map (fun kv => (kv.1, JsonInner.leaf kv.2))))) := by
  constructor
  · intro hnone
    have hdata : props.any (fun p => p.1 == "data") = false := by
      apply List.any_eq_false.mpr
      intro p hp
      simpa using (hnone p hp).1
    have hpage : props.any (fun p => p.1 == "page") = false := by
      apply List.any_eq_false.mpr
      intro p hp
      simpa using (hnone p hp).2
    unfold generateSchemaExample
    rw [propsExample_any_name, propsExample_isEmpty]
    simp only [hdata, hpage]
    simp
  · intro hex
    by_cases hdata : props.any (fun p => p.1 == "data") = true
    · unfold generateSchemaExample
      rw [propsExample_any_name]
      simp [hdata]
    · have hpage : props.any (fun p => p.1 == "page") = true := by
        rcases hex with ⟨p, hp, hdp | hpp⟩
        · exact absurd (List.any_eq_true.mpr ⟨p, hp, by simpa using hdp⟩) hdata
        · exact List.any_eq_true.mpr ⟨p, hp, by simpa using hpp⟩
      unfold generateSchemaExample
      rw [propsExample_any_name]
      simp only [Bool.not_eq_true] at hdata
      simp [hdata, hpage]

/-- Witness for C5: the one-property schema {id: string} as a response example
is wrapped in the data/page envelope. -/
theorem response_example_wrapping_witness :
    (∀ p ∈ [("id", PropSchema.mk (some "string"))], p.1 ≠ "data" ∧ p.1 ≠ "page") ∧
    generateSchemaExample ⟨some "object", [("id", ⟨some "string"⟩)]⟩ true =
      some (.obj [("data", JsonInner.obj [("id", .str "uuid-here")]), ("page", pageObject)]) :=
  ⟨by decide,
    ((response_example_wrapping [("id", ⟨some "string"⟩)]).1 (by decide)).trans (by decide)⟩

/-- Counterexample for C5 as stated: the object schema with no declared
properties declares neither "data" nor "page", yet its response example does
not wrap the (empty) per-property object — it wraps the default
{"id": "uuid-here"}. -/
theorem response_example_wrapping_cex :
    (∀ p ∈ ([] : List (String × PropSchema)), p.1 ≠ "data" ∧ p.1 ≠ "page") ∧
    generateSchemaExample ⟨some "object", []⟩ true ≠
      some (.obj [("data", JsonInner.obj (propsExample [])), ("page", pageObject)]) ∧
    generateSchemaExample ⟨some "object", []⟩ true =
      some (.obj [("data", JsonInner.obj [("id", JsonLeaf.str "uuid-here")]), ("page", pageObject)]) := by
  decide

/-- C6: the per-property synthesis table — string properties named "id" or
ending in "_id" get the UUID placeholder, then names containing "date" or
"time" the timestamp, then "email" the placeholder email, other strings a
generic placeholder; integers 123, numbers 123.45 (represented 12345×10⁻²),
booleans true, arrays the two-element placeholder list — together with the
non-response object rule (one field per declared property, in order), and in
particular every permutation of {id: string, amount: number, is_active:
boolean} synthesizes {id: "uuid-here", amount: 123.45, is_active: true}. -/
theorem example_synthesis_table :
    (∀ name : String,
      (propExampleValue name "string" =
        (if name = "id" ∨ isSuffixB "_id".data name.data then JsonLeaf.str "uuid-here"
         else if containsB name.data "date".data ∨ containsB name.data "time".data then
           JsonLeaf.str "2024-01-01T00:00:00Z"
         else if name = "email" then JsonLeaf.str "user@company.com"
         else JsonLeaf.str "string")) ∧
      propExampleValue name "integer" = .int 123 ∧
      propExampleValue name "number" = .dec 12345 2 ∧
      propExampleValue name "boolean" = .bool true ∧
      propExampleValue name "array" = .strList ["item1", "item2"]) ∧
    (∀ props : List (String × PropSchema),
      generateSchemaExample ⟨some "object", props⟩ false =
        some (.obj ((propsExample props).map (fun kv => (kv.1, JsonInner.leaf kv.2))))) ∧
    (∀ props : List (String × PropSchema),
      props.Perm [("id", ⟨some "string"⟩), ("amount", ⟨some "number"⟩),
        ("is_active", ⟨some "boolean"⟩)] →
      generateSchemaExample ⟨some "object", props⟩ false =
        some (.obj (props.map (fun p => (p.1,
          JsonInner.leaf (if p.1 = "id" then JsonLeaf.str "uuid-here"
            else if p.1 = "amount" then JsonLeaf.dec 12345 2
            else JsonLeaf.bool true)))))) := by
  refine ⟨?_, ?_, ?_⟩
  · intro name
    refine ⟨?_, rfl, rfl, rfl, rfl⟩
    by_cases h1 : name = "id" ∨ isSuffixB "_id".data name.data
    · rw [if_pos h1]
      have hb : (isSuffixB "_id".data name.data || name == "id") = true := by
        rcases h1 with h1 | h1
        · simp [h1]
        · simp [h1]
      simp [propExampleValue, hb]
    · rw [if_neg h1]
      have hb : (isSuffixB "_id".data name.data || name == "id") = false := by
        rcases not_or.mp h1 with ⟨ha, hs⟩
        simp [ha, hs]
      by_cases h2 : containsB name.data "date".data ∨ containsB name.data "time".data
      · rw [if_pos h2]
        have hc : (containsB name.data "date".data || containsB name.data "time".data) = true := by
          rcases h2 with h2 | h2 <;> simp [h2]
        simp [propExampleValue, hb, hc]
      · rw [if_neg h2]
        have hc : (containsB name.data "date".data || containsB name.data "time".data) = false := by
          rcases not_or.mp h2 with ⟨ha, hs⟩
          simp [ha, hs]
        by_cases h3 : name = "email"
        · rw [if_pos h3]
          subst h3
          decide
        · rw [if_neg h3]
          simp [propExampleValue, hb, hc, h3]
  · intro props
    rfl
  · intro props hperm
    have hmap : (propsExample props).map (fun kv => (kv.1, JsonInner.leaf kv.2)) =
        props.map (fun p => (p.1,
          JsonInner.leaf (if p.1 = "id" then JsonLeaf.str "uuid-here"
            else if p.1 = "amount" then JsonLeaf.dec 12345 2
            else JsonLeaf.bool true))) := by
      rw [propsExample, List.map_map]
      apply List.map_congr_left
      intro p hp
      have hp3 := hperm.mem_iff.mp hp
      simp only [List.mem_cons, List.not_mem_nil, or_false] at hp3
      rcases hp3 with rfl | rfl | rfl <;> rfl
    rw [show generateSchemaExample ⟨some "object", props⟩ false =
        some (.obj ((propsExample props).map (fun kv => (kv.1, JsonInner.leaf kv.2)))) from rfl,
      hmap]

/-- Witness for C6: the permuted schema {amount, is_active, id} synthesizes
the same values, in its own property order. -/
theorem example_synthesis_table_witness :
    ([("amount", PropSchema.mk (some "number")), ("is_active", PropSchema.mk (some "boolean")),
        ("id", PropSchema.mk (some "string"))].Perm
      [("id", ⟨some "string"⟩), ("amount", ⟨some "number"⟩), ("is_active", ⟨some "boolean"⟩)]) ∧
    generateSchemaExample ⟨some "object",
        [("amount", ⟨some "number"⟩), ("is_active", ⟨some "boolean"⟩), ("id", ⟨some "string"⟩)]⟩ false =
      some (.obj [("amount", .leaf (.dec 12345 2)), ("is_active", .leaf (.bool true)),
        ("id", .leaf (.str "uuid-here"))]) :=
  ⟨by decide,
    (example_synthesis_table.2.2 _ (by decide)).trans (by decide)⟩

end RampMCP

namespace RampMCP

/-- The keyword→filename boost table of
`SearchDocumentationTool._calculate_relevance`, in dictionary order. -/
def keywordBoosts : List (String × List String) := [
  ("auth", ["authorization.mdx", "guides/getting-started.mdx"]),
  ("oauth", ["authorization.mdx", "guides/getting-started.mdx"]),
  ("bill", ["guides/bill-pay.mdx"]),
  ("payment", ["guides/bill-pay.mdx"]),
  ("card", ["guides/single-use-cards.mdx", "guides/cards-and-funds.mdx"]),
  ("webhook", ["webhooks.mdx"]),
  ("accounting", ["guides/accounting.mdx"]),
  ("mcp", ["guides/ramp-mcp-remote.mdx"])]

/-- The filename term of the relevance score, ×10: 3 per query word occurring
in the lower-cased filename (duplicated query words count twice, as in the
source loop). -/
def filenameScore10 (query filename : String) : Nat :=
  3 * (splitWS (pyLower query.data)).countP
    (fun w => containsB (pyLower filename.data) w)

/-- The content term of the relevance score, ×10: 1 per word of the query word
set that is also in the content word set (set intersection). -/
def contentScore10 (query content : String) : Nat :=
  (dedupB (splitWS (pyLower query.data))).countP
    (fun w => (splitWS (pyLower content.data)).contains w)

/-- The boost term of the relevance score, ×10: 5 per (keyword, boosted file)
pair with the keyword contained in the query and the file name contained in
the filename. -/
def boostScore10 (query filename : String) : Nat :=
  5 * (keywordBoosts.map (fun kb =>
    if containsB (pyLower query.data) kb.1.data then
      kb.2.countP (fun f => containsB (pyLower filename.data) f.data)
    else 0)).sum

/-- `SearchDocumentationTool._calculate_relevance`, ×10 (the float weights
0.3, 0.1, 0.5 are exact multiples of 0.1 and their sums stay small, so the
scaled integer value orders guides exactly as the source does). -/
def calculateRelevance10 (query content filename : String) : Nat :=
  filenameScore10 query filename + contentScore10 query content +
    boostScore10 query filename

/-- C9 (amended): among two guides with identical content, one whose filename
contains a query word scores strictly higher than one whose filename contains
none, provided both receive the same total boost from the keyword→filename
table.  (Without that proviso the claim fails: the boost can outweigh the
word term; see the counterexample.) -/
theorem relevance_filename_word (query content f1 f2 : String)
    (h1 : ∃ w ∈ splitWS (pyLower query.data), containsB (pyLower f1.data) w = true)
    (h2 : ∀ w ∈ splitWS (pyLower query.data), containsB (pyLower f2.data) w = false)
    (hb : boostScore10 query f1 = boostScore10 query f2) :
    calculateRelevance10 query content f2 < calculateRelevance10 query content f1 := by
  have hpos : 0 < (splitWS (pyLower query.data)).countP
      (fun w => containsB (pyLower f1.data) w) := by
    rcases h1 with ⟨w, hw, hcw⟩
    exact List.countP_pos_iff.mpr ⟨w, hw, hcw⟩
  have hzero : (splitWS (pyLower query.data)).countP
      (fun w => containsB (pyLower f2.data) w) = 0 := by
    apply List.countP_eq_zero.mpr
    intro w hw
    simp [h2 w hw]
  unfold calculateRelevance10 filenameScore10
  rw [hzero, hb]
  omega

/-- Witness for C9: query "bills", identical empty content, filenames
"bills.mdx" (contains the word) and "x.mdx" (does not); no boost applies to
either. -/
theorem relevance_filename_word_witness :
    (∃ w ∈ splitWS (pyLower ("bills" : String).data),
      containsB (pyLower ("bills.mdx" : String).data) w = true) ∧
    boostScore10 "bills" "bills.mdx" = boostScore10 "bills" "x.mdx" ∧
    calculateRelevance10 "bills" "" "x.mdx" < calculateRelevance10 "bills" "" "bills.mdx" :=
  ⟨by decide, by decide,
    relevance_filename_word "bills" "" "bills.mdx" "x.mdx" (by decide) (by decide) (by decide)⟩

/-- Counterexample for C9 as stated: query "authx", identical empty content;
"authx.mdx" contains the query word, "guides/getting-started.mdx" contains no
query word, yet the latter scores higher (0.5 boost from the "auth" table row
beats the 0.3 word term). -/
theorem relevance_filename_word_cex :
    (∃ w ∈ splitWS (pyLower ("authx" : String).data),
      containsB (pyLower ("authx.mdx" : String).data) w = true) ∧
    (∀ w ∈ splitWS (pyLower ("authx" : String).data),
      containsB (pyLower ("guides/getting-started.mdx" : String).data) w = false) ∧
    calculateRelevance10 "authx" "" "authx.mdx" = 3 ∧
    calculateRelevance10 "authx" "" "guides/getting-started.mdx" = 5 ∧
    ¬ (calculateRelevance10 "authx" "" "guides/getting-started.mdx" <
        calculateRelevance10 "authx" "" "authx.mdx") := by
  decide

/-- Result of one `submit_feedback` call: either the validation message (no
network request is made) or an attempted submission carrying the parameters
sent to the feedback endpoint. -/
inductive FeedbackResult where
  | validationError (msg : String)
  | attemptSubmit (feedback : String) (source : String)
deriving DecidableEq, Repr

/-- `SubmitFeedbackTool.execute` up to the network call: strip the feedback,
reject trimmed lengths below 10 or above 1000 with the validation message,
otherwise attempt submission with parameters (feedback, "RAMP_MCP"). -/
def submitFeedbackExecute (feedback : String) : FeedbackResult :=
  if (stripWS feedback.data).length < 10 ∨ 1000 < (stripWS feedback.data).length then
    .validationError "Feedback must be at least 10 characters long and less than 1000 characters."
  else
    .attemptSubmit (String.mk (stripWS feedback.data)) "RAMP_MCP"

/-- C10: feedback whose trimmed length is below 10 or above 1000 characters
draws the validation message and no submission; every trimmed length from 10
to 1000 inclusive passes the guard and submission is attempted. -/
theorem feedback_validation (feedback : String) :
    (((stripWS feedback.data).length < 10 ∨ 1000 < (stripWS feedback.data).length) →
      submitFeedbackExecute feedback =
        .validationError "Feedback must be at least 10 characters long and less than 1000 characters.") ∧
    ((10 ≤ (stripWS feedback.data).length ∧ (stripWS feedback.data).length ≤ 1000) →
      submitFeedbackExecute feedback =
        .attemptSubmit (String.mk (stripWS feedback.data)) "RAMP_MCP") := by
  constructor
  · intro h
    rw [submitFeedbackExecute, if_pos h]
  · intro h
    rw [submitFeedbackExecute, if_neg (by omega)]

/-- Witness for C10 at the upper boundary: 1000 non-whitespace characters are
accepted and submitted. -/
theorem feedback_validation_witness :
    (stripWS (String.mk (List.replicate 1000 'a')).data).length = 1000 ∧
    submitFeedbackExecute (String.mk (List.replicate 1000 'a')) =
      .attemptSubmit (String.mk (stripWS (String.mk (List.replicate 1000 'a')).data)) "RAMP_MCP" := by
  have hs : stripWS (String.mk (List.replicate 1000 'a')).data = List.replicate 1000 'a' := by
    have hd : ∀ n : Nat, (List.replicate n 'a').dropWhile isPySpace = List.replicate n 'a' := by
      intro n
      cases n with
      | zero => rfl
      | succ k => rw [List.replicate_succ, List.dropWhile_cons_of_neg (by decide)]
    rw [show (String.mk (List.replicate 1000 'a')).data = List.replicate 1000 'a' from rfl,
      stripWS, hd, List.reverse_replicate, hd, List.reverse_replicate]
  constructor
  · rw [hs, List.length_replicate]
  · exact (feedback_validation (String.mk (List.replicate 1000 'a'))).2
      (by rw [hs, List.length_replicate]; omega)

end RampMCP

namespace RampMCP

/-- The cluster→title table of `_format_extracted_guidance`. -/
def clusterTitles : List (String × String) := [
  ("ap_workflow", "Accounts Payable & Bill Management"),
  ("erp_integration", "ERP/Accounting Integration"),
  ("card_management", "Card Management & Spending Controls"),
  ("user_management", "User Management & Onboarding"),
  ("expense_reporting", "Expense Reporting & Analytics"),
  ("agents", "AI Agents & MCP Integration"),
  ("webhooks", "Webhooks & Real-Time Events"),
  ("authentication", "Authentication & Authorization")]

/-- Title lookup with the table's default. -/
def lookupClusterTitle (cluster : String) : String :=
  match clusterTitles.find? (fun p => p.1 == cluster) with
  | some p => p.2
  | none => "Ramp API Integration"

/-- The OAuth-specific section headers searched for the authentication
cluster, in source order. -/
def oauthSectionHeaders : List String := [
  "## Understanding environments",
  "## Quickstart: Authorize with Client Credentials",
  "### 1. Create a Developer App",
  "### 2. Request an Access Token",
  "### 3. Make an API Call",
  "## FAQ: Client credentials flow",
  "## Authorization code: For multi-customer apps",
  "### Step 1: User is redirected to Ramp authorization URL",
  "### Step 2: User authenticates and approves access",
  "### Step 3: Exchange the `code` for an access token",
  "### Step 4: Refresh the access token",
  "## FAQ: Authorization code flow",
  "## Next steps",
  "## OAuth 2.0 Framework",
  "## Permission Model & Scopes",
  "## Token Management",
  "## Authorization Flow Deep Dive",
  "### Client Credentials Flow",
  "### Authorization Code Flow"]

/-- The generic section headers searched for every other cluster, in source
order. -/
def commonSectionHeaders : List String := [
  "## Overview",
  "## Getting Started",
  "## Quick Start",
  "## Implementation",
  "## Best Practices",
  "## Common Pitfalls",
  "## Examples",
  "## Next Steps",
  "## How It Works",
  "## How to Get Started",
  "## Key Features",
  "## Example Use Cases",
  "## Why Use",
  "## Sample Code"]

/-- `str.replace` on strings. -/
def pyReplaceS (s old new : String) : String := String.mk (replaceB s.data old.data new.data)

/-- `RampKnowledgeBase._extract_key_sections_from_guide`: for the
authentication cluster search the OAuth headers (titles keep the header text
without its "### "/"## " prefix, contents are capped at 1200 characters); for
every other cluster search the common headers (cap 1000).  Sections whose
extracted text is empty are skipped; the caller passes no section limit. -/
def extractKeySections (content : String) (cluster : String) : List (String × String) :=
  if cluster == "authentication" then
    oauthSectionHeaders.filterMap (fun h =>
      if extractMarkdownSection content h ≠ "" then
        some (pyReplaceS (pyReplaceS h "### " "") "## " "",
          String.mk ((extractMarkdownSection content h).data.take 1200))
      else none)
  else
    commonSectionHeaders.filterMap (fun h =>
      if extractMarkdownSection content h ≠ "" then
        some (pyReplaceS h "## " "",
          String.mk ((extractMarkdownSection content h).data.take 1000))
      else none)

/-- The fixed footer of `_format_extracted_guidance`. -/
def guidanceFooter : String :=
  "---\n\n## IMPORTANT\n\n- **Always validate code samples**: Use `validate_endpoint_usage` to validate any code you write. This will ensure all endpoints, query parameters, and conventions used are actually available in the OpenAPI specification \n- **Search documentation**: Use `search_documentation` for implementation guidance\n- **Submit feedback**: Use `submit_feedback` to report issues or suggest improvements\n\n*This guide is automatically generated from the latest Ramp developer documentation.*\n"

/-- `RampKnowledgeBase._format_extracted_guidance`: header with the cluster
title and echoed use case, one block per section, and the fixed footer. -/
def formatExtractedGuidance (sections : List (String × String)) (useCase cluster : String) : String :=
  "# " ++ lookupClusterTitle cluster ++ " Workflow\n\n**Use Case**: " ++ useCase ++
    "\n\n*This guidance is extracted from Ramp's developer documentation and updated automatically.*\n\n" ++
    String.join (sections.map (fun s => "## " ++ s.1 ++ "\n\n" ++ s.2 ++ "\n\n")) ++
    guidanceFooter

/-- `RampKnowledgeBase._extract_general_guidance`, the fallback template. -/
def generalGuidance (useCase : String) : String :=
  "# General Integration Guidance\n\n**Use Case**: " ++ useCase ++
    "\n\n## ðŸ—ï¸ Approach\n\nSince we couldn't match your use case to a specific workflow, here's a general approach:\n\n1. **Identify the data you need** - What Ramp data do you want to access?\n2. **Check available APIs** - Review endpoints at developer.ramp.com\n3. **Start with authentication** - Use `get_started` tool for setup help\n4. **Test in sandbox** - Always use demo-api.ramp.com first\n5. **Validate your code** - Use `validate_endpoint_usage` to check your API implementation\n\n## ðŸ’¡ Common Use Cases\n\nTry these keywords with `explore_use_case` for specific guidance:\n- \"bill payments\" or \"accounts payable\"\n- \"quickbooks sync\" or \"accounting integration\"  \n- \"card issuing\" or \"spending limits\"\n- \"user management\" or \"employee onboarding\"\n- \"expense reporting\" or \"analytics\"\n- \"webhooks\" or \"real-time events\"\n- \"ai integration\" or \"mcp server\"\n\n## ðŸ” Next Steps\n\n1. Use `search_documentation` to find implementation guidance\n2. Use `validate_endpoint_usage` to check your code\n3. Use `submit_feedback` to request guidance for your specific use case or submit a feature request\n\n*This is general guidance. For specific workflows, use more targeted keywords.*\n"

/-- `RampKnowledgeBase._find_guide_by_filename`: direct read through the
store, falling back to the first loaded guide whose path contains the
filename. -/
def findGuideByFilename (store : String → Option String)
    (guides : List (String × String)) (filename : String) : Option String :=
  match store filename with
  | some c => some c
  | none => (guides.find? (fun g => containsB g.1.data filename.data)).map Prod.snd

/-- `RampKnowledgeBase.get_workflow_guidance` (with
`_extract_guidance_from_markdown` inlined): classify the lower-cased use
case; fall back to general guidance when there is no cluster, no guide, no
guide content, or no extracted section; otherwise format the extracted
sections.  The document store and loaded-guide table are external inputs. -/
def getWorkflowGuidance (store : String → Option String)
    (guides : List (String × String)) (useCase : String) : String :=
  match detectIntent (String.mk (pyLower useCase.data)) with
  | none => generalGuidance useCase
  | some cluster =>
    match (match clusters.find? (fun c => c.name == cluster) with
           | some c => c.guides
           | none => []) with
    | [] => generalGuidance useCase
    | gf :: _ =>
      match findGuideByFilename store guides gf with
      | none => generalGuidance useCase
      | some content =>
        match extractKeySections content cluster with
        | [] => generalGuidance useCase
        | s :: ss => formatExtractedGuidance (s :: ss) useCase cluster

end RampMCP

namespace RampMCP

theorem isPrefixB_iff : ∀ p l : List Char, isPrefixB p l = true ↔ p <+: l := by
  intro p
  induction p with
  | nil => intro l; simp [isPrefixB]
  | cons a as ih =>
    intro l
    cases l with
    | nil => simp [isPrefixB]
    | cons b bs =>
      simp only [isPrefixB, Bool.and_eq_true, decide_eq_true_eq, List.cons_prefix_cons, ih]

theorem containsB_iff : ∀ l p : List Char, containsB l p = true ↔ p <:+: l := by
  intro l
  induction l with
  | nil =>
    intro p
    simp only [containsB, isPrefixB_iff]
    constructor
    · intro h
      exact h.isInfix
    · intro h
      exact (List.infix_nil.mp h) ▸ List.nil_prefix
  | cons c t ih =>
    intro p
    simp only [containsB, Bool.or_eq_true, isPrefixB_iff, ih, List.infix_cons_iff]

end RampMCP

namespace RampMCP

/-- C7 (amended): the query "how do I set up OAuth" classifies to the
authentication cluster, and whenever section extraction from the
authentication guide yields at least one section, the workflow-guidance
output contains the authentication cluster's title.  (The original claim also
required the CORS warning verbatim; the guidance formatter emits no cluster
warnings — only the schema and search tools do — so the warning appears only
if the guide text itself contains it; see the counterexample.) -/
theorem oauth_guidance_title (g : String)
    (hne : extractKeySections g "authentication" ≠ []) :
    detectIntent (String.mk (pyLower ("how do I set up OAuth" : String).data)) =
      some "authentication" ∧
    containsB (getWorkflowGuidance
        (fun f => if f == "authorization.mdx" then some g else none) []
        "how do I set up OAuth").data
      ("Authentication & Authorization" : String).data = true := by
  constructor
  · decide
  · have hred : getWorkflowGuidance
        (fun f => if f == "authorization.mdx" then some g else none) []
        "how do I set up OAuth" =
        match extractKeySections g "authentication" with
        | [] => generalGuidance "how do I set up OAuth"
        | s :: ss =>
          formatExtractedGuidance (s :: ss) "how do I set up OAuth" "authentication" := by
      rfl
    rw [hred]
    rcases e : extractKeySections g "authentication" with _ | ⟨s, ss⟩
    · exact absurd e hne
    · apply (containsB_iff _ _).mpr
      refine ⟨"# ".data,
        (" Workflow\n\n**Use Case**: how do I set up OAuth\n\n*This guidance is extracted from Ramp's developer documentation and updated automatically.*\n\n" : String).data ++
          (String.join ((s :: ss).map (fun sec => "## " ++ sec.1 ++ "\n\n" ++ sec.2 ++ "\n\n"))).data ++
          guidanceFooter.data, ?_⟩
      show (formatExtractedGuidance (s :: ss) "how do I set up OAuth" "authentication").data = _
      rw [formatExtractedGuidance]
      rw [show lookupClusterTitle "authentication" = "Authentication & Authorization" from rfl]
      simp only [String.data_append, List.append_assoc]
      rfl
  
end RampMCP

namespace RampMCP

/-- Witness for C7 on a concrete guide containing one OAuth section. -/
theorem oauth_guidance_title_witness :
    extractKeySections "## OAuth 2.0 Framework\nUse tokens properly." "authentication" ≠ [] ∧
    containsB (getWorkflowGuidance
        (fun f => if f == "authorization.mdx" then
          some "## OAuth 2.0 Framework\nUse tokens properly." else none) []
        "how do I set up OAuth").data
      ("Authentication & Authorization" : String).data = true :=
  ⟨by decide,
    (oauth_guidance_title "## OAuth 2.0 Framework\nUse tokens properly." (by decide)).2⟩

/-- Counterexample for C7 as stated: with a guide store whose authentication
guide does not contain the CORS warning, the query still classifies to the
authentication cluster and sections are extracted, yet the guidance output
does not contain the warning — the formatter never emits cluster warnings. -/
theorem oauth_guidance_warning_cex :
    detectIntent (String.mk (pyLower ("how do I set up OAuth" : String).data)) =
      some "authentication" ∧
    extractKeySections "## OAuth 2.0 Framework\nUse tokens properly." "authentication" ≠ [] ∧
    containsB (getWorkflowGuidance
        (fun f => if f == "authorization.mdx" then
          some "## OAuth 2.0 Framework\nUse tokens properly." else none) []
        "how do I set up OAuth").data
      corsWarning.data = false := by
  refine ⟨by decide, by decide, by decide⟩

end RampMCP
